import Mathlib

/-!
Verification of the Zemi-Escrow order lifecycle (Django app `api`).

The embedding models the three public operations of `src/api/views.py`
(`create_order`, `payment_webhook`, `confirm_delivery`) together with the
serializer validation of `src/api/serializers.py` and the data model of
`src/api/models.py`.  A database state is a triple of lists of rows; each
HTTP handler becomes a pure function from a database state and the request
payload (plus an environment carrying the values the code draws from the
outside: the generated order reference and delivery code, hashing salts,
and the current time) to a result value and a new database state.  The
`transaction.atomic` block in each view is reflected by every failure
branch returning the input database unchanged.  Strings are modelled as
lists of characters; decimal amounts (`DecimalField(max_digits=10,
decimal_places=2)`) are modelled exactly as an integer number of cents.
-/

namespace Zemi

/-- Strings of the Python program, modelled as lists of characters. -/
abbrev Str := List Char

/-- Coercion from Lean string literals into the model's strings. -/
def str (s : String) : Str := s.data

/-- Order statuses (`Order.STATUS_CHOICES`, `src/api/models.py`). -/
inductive Status where
  | awaiting_payment
  | paid
  | completed
  | cancelled
  | refunded
deriving DecidableEq, BEq, Repr

/-- Payment statuses (`Payment.PAYMENT_STATUS_CHOICES`, `src/api/models.py`). -/
inductive PaymentStatus where
  | pending
  | completed
  | failed
  | refunded
deriving DecidableEq, BEq, Repr

/-- Payout statuses (`Payout.PAYOUT_STATUS_CHOICES`, `src/api/models.py`). -/
inductive PayoutStatus where
  | pending
  | processing
  | completed
  | failed
deriving DecidableEq, BEq, Repr

/-- Payment methods (`Payment.PAYMENT_METHOD_CHOICES`, also the choices of
`PaymentWebhookSerializer.payment_method`). -/
inductive PayMethod where
  | mpesa
  | stripe
  | visa
deriving DecidableEq, BEq, Repr

/-- Transition table of `Order.can_transition_to`
(`src/api/models.py` lines 74-80: the `valid_transitions` dict). -/
def valid_transitions (current : Status) : List Status :=
  match current with
  | .awaiting_payment => [.paid, .cancelled]
  | .paid => [.completed, .refunded, .cancelled]
  | .completed => []
  | .cancelled => []
  | .refunded => []

/-- Membership test of `Order.can_transition_to`
(`src/api/models.py` line 81: `new_status in valid_transitions.get(...)`). -/
def can_transition_to (current new_status : Status) : Bool :=
  (valid_transitions current).contains new_status

/-- Digest-character escape used by the hasher model: digest characters are
never the field separator. -/
def sanitizeChar (c : Char) : Char :=
  if c = '$' then '0' else c

/-- Modelled from library code outside this repository:
`django.contrib.auth.hashers` (PBKDF2 password hasher), used by
`Order.hash_phone_number` and `check_password` in the views.  The digest
component of the encoded hash is a deterministic one-way function of the
salt and the secret; we model it abstractly as a separator-free encoding,
since the claims depend only on the encoded format and the verification
round trip, not on the cryptographic digest itself. -/
def hashDigest (salt secret : Str) : Str :=
  (salt ++ secret).map sanitizeChar

/-- Modelled from library code outside this repository: Django
`make_password` returns `algorithm$iterations$salt$digest`.  Django salts
are drawn from an alphanumeric alphabet and thus never contain `$`. -/
def make_password (salt secret : Str) : Str :=
  str "pbkdf2_sha256" ++ '$' :: (str "1000000" ++ '$' :: (salt ++ '$' :: hashDigest salt secret))

/-- Split a character list on the `$` separator (model of the parsing done
by Django's `check_password` to recover algorithm, iterations and salt). -/
def splitDollar : Str → List Str
  | [] => [[]]
  | c :: rest =>
    if c = '$' then [] :: splitDollar rest
    else
      match splitDollar rest with
      | [] => [[c]]
      | p :: ps => (c :: p) :: ps

/-- Modelled from library code outside this repository: Django
`check_password` parses the stored encoding, re-encodes the candidate
secret with the recovered salt and compares; malformed encodings verify as
false. -/
def check_password (secret stored : Str) : Bool :=
  match splitDollar stored with
  | [alg, iters, salt, dig] =>
    decide (alg = str "pbkdf2_sha256") && decide (iters = str "1000000")
      && decide (dig = hashDigest salt secret)
  | _ => false

/-- Order row (`Order` model, `src/api/models.py`).  The `id`,
`created_at` and `updated_at` columns are omitted: no claim mentions them
and no handler branches on them.  Timestamps are abstract instants. -/
structure Order where
  order_reference : Str
  buyer_phone_hash : Str
  buyer_phone_last4 : Str
  amount : Int
  product_description : Str
  delivery_code_hash : Str
  status : Status
  paid_at : Option Nat
  completed_at : Option Nat
deriving DecidableEq, Repr

/-- Payment row (`Payment` model).  The foreign key to `Order` is carried
as the order reference (unique on orders); `provider_reference` and
`metadata` are omitted (opaque, never branched on). -/
structure Payment where
  order_ref : Str
  payment_method : PayMethod
  amount : Int
  transaction_id : Str
  payer_phone_hash : Option Str
  payer_phone_last4 : Option Str
  status : PaymentStatus
  completed_at : Option Nat
deriving DecidableEq, Repr

/-- Payout row (`Payout` model); the foreign key to `Payment` is carried as
that payment's (unique) transaction id. -/
structure Payout where
  order_ref : Str
  payment_transaction_id : Str
  amount : Int
  seller_phone_hash : Str
  seller_phone_last4 : Str
  status : PayoutStatus
deriving DecidableEq, Repr

/-- Database state: the three tables the escrow workflow touches.  The
`WebhookLog` table is omitted: it is written only by `mpesa_callback`,
which no claim concerns, and never read by the three modelled handlers. -/
structure DB where
  orders : List Order
  payments : List Payment
  payouts : List Payout
deriving DecidableEq, Repr

/-- Character filter of `CreateOrderSerializer.validate_buyer_phone`
(`re.sub(r'[^\d+]', '', value)`: keep digits and plus signs). -/
def stripPhoneChars (cs : Str) : Str :=
  cs.filter (fun c => c.isDigit || c = '+')

/-- Branching of `validate_buyer_phone` on the leading characters:
`+254...` drops the plus, `0...` replaces the zero by `254`, `254...` is
kept, anything else is rejected. -/
def phoneNormalize : Str → Option Str
  | '+' :: '2' :: '5' :: '4' :: rest => some ('2' :: '5' :: '4' :: rest)
  | '0' :: rest => some ('2' :: '5' :: '4' :: rest)
  | '2' :: '5' :: '4' :: rest => some ('2' :: '5' :: '4' :: rest)
  | _ => none

/-- `CreateOrderSerializer.validate_buyer_phone`
(`src/api/serializers.py` lines 10-26): strip, normalize the national
formats, then require exactly 12 characters. -/
def validate_buyer_phone (value : Str) : Option Str :=
  match phoneNormalize (stripPhoneChars value) with
  | none => none
  | some phone => if phone.length = 12 then some phone else none

/-- Field-level validation of the create-order `amount`
(`DecimalField(max_digits=10, decimal_places=2, min_value=1)`), stated on
cents: at least 1.00 and at most 10 decimal digits. -/
def amountFieldValid (cents : Int) : Bool :=
  decide (100 ≤ cents) && decide (cents ≤ 9999999999)

/-- `CreateOrderSerializer.validate_amount` (`src/api/serializers.py`
lines 28-32): amounts above 500000 KES are rejected. -/
def validate_amount (cents : Int) : Bool :=
  decide (cents ≤ 50000000)

/-- Field-level validation of `product_description`
(`min_length=5, max_length=1000`). -/
def descriptionValid (d : Str) : Bool :=
  decide (5 ≤ d.length) && decide (d.length ≤ 1000)

/-- `Order.get_last_4_digits` (`src/api/models.py` lines 67-70). -/
def get_last_4_digits (p : Str) : Str :=
  if 4 ≤ p.length then p.drop (p.length - 4) else p

/-- Request payload of `POST /api/orders/create`. -/
structure CreateOrderInput where
  buyer_phone : Str
  amount : Int
  product_description : Str

/-- Environment of one `create_order` call: the reference produced by
`Order.generate_order_reference()`, the code produced by
`Order.generate_delivery_code()`, and the salts Django draws for the two
`make_password` calls.  The view calls each generator exactly once. -/
structure CreateOrderEnv where
  order_reference : Str
  delivery_code : Str
  phone_salt : Str
  code_salt : Str

/-- Outcome of `create_order`: HTTP 201 with the body fields the claims
mention, HTTP 400 on serializer errors, HTTP 500 from the blanket
`except Exception` handler. -/
inductive CreateOrderResult where
  | success (order_reference delivery_code : Str) (amount : Int)
  | validationError
  | serverError
deriving DecidableEq, Repr

/-- Uniqueness probe for `Order.order_reference` (`unique=True`,
`src/api/models.py` line 18). -/
def refTaken (db : DB) (ref : Str) : Bool :=
  db.orders.any (fun o => decide (o.order_reference = ref))

/-- Order row built by `create_order` (`src/api/views.py` lines 47-61):
hashed phone and delivery code, amount and description from the request,
initial status `awaiting_payment`. -/
def createdOrder (inp : CreateOrderInput) (env : CreateOrderEnv) (phone : Str) : Order :=
  { order_reference := env.order_reference
    buyer_phone_hash := make_password env.phone_salt phone
    buyer_phone_last4 := get_last_4_digits phone
    amount := inp.amount
    product_description := inp.product_description
    delivery_code_hash := make_password env.code_salt env.delivery_code
    status := .awaiting_payment
    paid_at := none
    completed_at := none }

/-- The `create_order` view (`src/api/views.py` lines 19-82): serializer
validation, then inside `transaction.atomic` one reference and one
delivery code are generated, the phone and the code are hashed, and the
order row is inserted.  A reference collision raises an integrity error
caught by the blanket handler (HTTP 500) with the transaction rolled
back; no retry exists in the code. -/
def create_order (db : DB) (inp : CreateOrderInput) (env : CreateOrderEnv) :
    CreateOrderResult × DB :=
  match validate_buyer_phone inp.buyer_phone with
  | none => (.validationError, db)
  | some phone =>
    if amountFieldValid inp.amount && validate_amount inp.amount
        && descriptionValid inp.product_description then
      if refTaken db env.order_reference then
        (.serverError, db)
      else
        (.success env.order_reference env.delivery_code inp.amount,
         { db with orders := db.orders ++ [createdOrder inp env phone] })
    else (.validationError, db)

/-- Request payload of `POST /api/webhooks/payment`
(`PaymentWebhookSerializer`).  The typed fields make the presence and
choice-field checks hold by construction; `metadata` is omitted. -/
structure WebhookInput where
  order_reference : Str
  transaction_id : Str
  amount : Int
  payment_method : PayMethod
  payer_phone : Option Str

/-- Environment of one `payment_webhook` call: the salt of the payer-phone
hash and the current time (`timezone.now()`). -/
structure WebhookEnv where
  payer_salt : Str
  now : Nat

/-- Outcome of `payment_webhook`, one constructor per response of the view
(`duplicateTransactionId` is the serializer error of
`validate_transaction_id`; `serverError` is the blanket handler). -/
inductive WebhookResult where
  | success (order_reference transaction_id : Str) (paid_at : Nat)
  | duplicateTransactionId
  | orderNotFound
  | invalidTransition (current : Status)
  | amountMismatch
  | serverError
deriving DecidableEq, Repr

/-- Existence probe for a transaction id
(`Payment.objects.filter(transaction_id=value).exists()`). -/
def txnTaken (ps : List Payment) (txn : Str) : Bool :=
  ps.any (fun p => decide (p.transaction_id = txn))

/-- Payment store insert.  The storage layer enforces uniqueness of
`transaction_id` (`unique=True`, `src/api/models.py` line 106):
inserting a duplicate fails and leaves the table unchanged. -/
def insertPayment (ps : List Payment) (p : Payment) : Except Unit (List Payment) :=
  if txnTaken ps p.transaction_id then .error () else .ok (ps ++ [p])

/-- Row lookup by order reference
(`Order.objects.select_for_update().get(order_reference=...)`). -/
def findOrder (db : DB) (ref : Str) : Option Order :=
  db.orders.find? (fun o => decide (o.order_reference = ref))

/-- Persisting mutated fields of the order row fetched by reference
(`order.save()`; references are unique in the store). -/
def updateOrder (db : DB) (ref : Str) (f : Order → Order) : List Order :=
  db.orders.map (fun o => if o.order_reference = ref then f o else o)

/-- Field mutation performed by `payment_webhook` before `order.save()`
(`src/api/views.py` lines 157-159). -/
def markPaid (t : Nat) (o : Order) : Order :=
  { o with status := .paid, paid_at := some t }

/-- Field mutation performed by `confirm_delivery` before `order.save()`
(`src/api/views.py` lines 254-256). -/
def markCompleted (t : Nat) (o : Order) : Order :=
  { o with status := .completed, completed_at := some t }

/-- Payer-phone hashing in `payment_webhook` (`src/api/views.py` lines
138-143): Python's truthiness makes both a missing and an empty
`payer_phone` skip the hashing. -/
def payerHashes (env : WebhookEnv) : Option Str → Option Str × Option Str
  | some pp =>
    if pp = [] then (none, none)
    else (some (make_password env.payer_salt pp), some (get_last_4_digits pp))
  | none => (none, none)

/-- Payment row built by `payment_webhook` (`src/api/views.py` lines
145-155, with `completed_at` set by the second save at line 162, inside
the same transaction). -/
def paymentRow (inp : WebhookInput) (env : WebhookEnv) : Payment :=
  { order_ref := inp.order_reference
    payment_method := inp.payment_method
    amount := inp.amount
    transaction_id := inp.transaction_id
    payer_phone_hash := (payerHashes env inp.payer_phone).1
    payer_phone_last4 := (payerHashes env inp.payer_phone).2
    status := .completed
    completed_at := some env.now }

/-- The `payment_webhook` view (`src/api/views.py` lines 85-182):
serializer validation (including the duplicate-transaction-id pre-check),
then inside `transaction.atomic` the order row is locked and fetched, the
transition to `paid` and the exact amount equality are checked, the
completed payment row is inserted (storage-layer uniqueness guard), and
the order is saved as `paid` with `paid_at` set.  Every failure branch
leaves the database unchanged (rollback). -/
def payment_webhook (db : DB) (inp : WebhookInput) (env : WebhookEnv) :
    WebhookResult × DB :=
  if txnTaken db.payments inp.transaction_id then (.duplicateTransactionId, db)
  else
    match findOrder db inp.order_reference with
    | none => (.orderNotFound, db)
    | some order =>
      if can_transition_to order.status .paid then
        if order.amount = inp.amount then
          match insertPayment db.payments (paymentRow inp env) with
          | .error _ => (.serverError, db)
          | .ok ps =>
            (.success inp.order_reference inp.transaction_id env.now,
             { db with
               payments := ps
               orders := updateOrder db inp.order_reference (markPaid env.now) })
        else (.amountMismatch, db)
      else (.invalidTransition order.status, db)

/-- Request payload of `POST /api/orders/confirm-delivery`. -/
structure DeliveryInput where
  order_reference : Str
  delivery_code : Str

/-- Environment of one `confirm_delivery` call: the current time. -/
structure DeliveryEnv where
  now : Nat

/-- Outcome of `confirm_delivery`, one constructor per response of the
view; `serverError` is the blanket handler, reached when the single-row
`Payment.objects.get` finds several completed payments. -/
inductive DeliveryResult where
  | success (order_reference : Str) (completed_at : Nat)
  | validationError
  | orderNotFound
  | invalidTransition (current : Status)
  | invalidDeliveryCode
  | noCompletedPayment
  | serverError
deriving DecidableEq, Repr

/-- Validation of `DeliveryConfirmationSerializer.delivery_code`
(`min_length=6, max_length=6` and `validate_delivery_code`: all digits). -/
def deliveryCodeField (code : Str) : Bool :=
  decide (code.length = 6) && code.all Char.isDigit

/-- Completed payments of one order
(`Payment.objects.get(order=order, status='completed')` queries this
set; the model keys the foreign key by order reference). -/
def completedFor (db : DB) (ref : Str) : List Payment :=
  db.payments.filter
    (fun p => decide (p.order_ref = ref) && decide (p.status = PaymentStatus.completed))

/-- The `confirm_delivery` view (`src/api/views.py` lines 185-277):
serializer validation, then inside `transaction.atomic` the order row is
locked and fetched, the transition to `completed` is checked, the code is
verified against the stored hash, the unique completed payment is looked
up (`DoesNotExist` gives the no-completed-payment response,
`MultipleObjectsReturned` falls into the blanket HTTP 500 handler), the
payout row is created with the order's amount and status `pending`, and
the order is saved as `completed` with `completed_at` set. -/
def confirm_delivery (db : DB) (inp : DeliveryInput) (env : DeliveryEnv) :
    DeliveryResult × DB :=
  if deliveryCodeField inp.delivery_code then
    match findOrder db inp.order_reference with
    | none => (.orderNotFound, db)
    | some order =>
      if can_transition_to order.status .completed then
        if check_password inp.delivery_code order.delivery_code_hash then
          match completedFor db inp.order_reference with
          | [] => (.noCompletedPayment, db)
          | [payment] =>
            (.success inp.order_reference env.now,
             { db with
               payouts := db.payouts ++
                 [{ order_ref := inp.order_reference
                    payment_transaction_id := payment.transaction_id
                    amount := order.amount
                    seller_phone_hash := order.buyer_phone_hash
                    seller_phone_last4 := order.buyer_phone_last4
                    status := .pending }]
               orders := updateOrder db inp.order_reference (markCompleted env.now) })
          | _ :: _ :: _ => (.serverError, db)
        else (.invalidDeliveryCode, db)
      else (.invalidTransition order.status, db)
  else (.validationError, db)

/-- One call to any of the three public operations. -/
inductive Op where
  | create (inp : CreateOrderInput) (env : CreateOrderEnv)
  | webhook (inp : WebhookInput) (env : WebhookEnv)
  | deliver (inp : DeliveryInput) (env : DeliveryEnv)

/-- State reached after one operation (the response is discarded). -/
def applyOp (db : DB) : Op → DB
  | .create inp env => (create_order db inp env).2
  | .webhook inp env => (payment_webhook db inp env).2
  | .deliver inp env => (confirm_delivery db inp env).2

/-- Database states reachable from the empty store through the public
operations. -/
inductive Reachable : DB → Prop where
  | init : Reachable ⟨[], [], []⟩
  | step {db : DB} (op : Op) : Reachable db → Reachable (applyOp db op)

/-- Transition table as written in section 4.2 of the specification,
stated independently of the code for comparison with
`can_transition_to`. -/
def specTransitionTable (current target : Status) : Prop :=
  match current with
  | .awaiting_payment => target = .paid ∨ target = .cancelled
  | .paid => target = .completed ∨ target = .refunded ∨ target = .cancelled
  | .completed => False
  | .cancelled => False
  | .refunded => False

theorem can_to_paid_iff (s : Status) :
    can_transition_to s .paid = true ↔ s = .awaiting_payment := by
  cases s <;> decide

theorem can_to_completed_iff (s : Status) :
    can_transition_to s .completed = true ↔ s = .paid := by
  cases s <;> decide

theorem find?_ref_map (l : List Order) (r : Str) (f : Order → Order)
    (hf : ∀ o : Order, (f o).order_reference = o.order_reference) :
    (l.map f).find? (fun o => decide (o.order_reference = r)) =
      (l.find? (fun o => decide (o.order_reference = r))).map f := by
  rw [List.find?_map]
  have hp : ((fun o : Order => decide (o.order_reference = r)) ∘ f) =
      (fun o : Order => decide (o.order_reference = r)) := by
    funext o
    show decide ((f o).order_reference = r) = decide (o.order_reference = r)
    rw [hf o]
  rw [hp]

theorem updateOrder_find? (db : DB) (uref r : Str) (f : Order → Order)
    (hf : ∀ o : Order, (f o).order_reference = o.order_reference) :
    (updateOrder db uref f).find? (fun o => decide (o.order_reference = r)) =
      (db.orders.find? (fun o => decide (o.order_reference = r))).map
        (fun o => if o.order_reference = uref then f o else o) := by
  unfold updateOrder
  apply find?_ref_map
  intro o
  by_cases h : o.order_reference = uref
  · rw [if_pos h]
    exact hf o
  · rw [if_neg h]

theorem markPaid_ref (t : Nat) (o : Order) :
    (markPaid t o).order_reference = o.order_reference := rfl

theorem markCompleted_ref (t : Nat) (o : Order) :
    (markCompleted t o).order_reference = o.order_reference := rfl

/-- Either `create_order` leaves the database unchanged, or it appends one
order with the generated (previously free) reference in status
`awaiting_payment`, touching no other table. -/
theorem create_order_shape (db : DB) (inp : CreateOrderInput) (env : CreateOrderEnv) :
    (create_order db inp env).2 = db ∨
    (refTaken db env.order_reference = false ∧
     ∃ o : Order, o.order_reference = env.order_reference ∧
       o.status = .awaiting_payment ∧
       (create_order db inp env).2 = { db with orders := db.orders ++ [o] }) := by
  unfold create_order
  split
  · exact Or.inl rfl
  · split
    · split
      · exact Or.inl rfl
      · next hfree =>
        right
        exact ⟨by simpa using hfree, _, rfl, rfl, rfl⟩
    · exact Or.inl rfl

/-- Either `payment_webhook` leaves the database unchanged, or the order
named in the request was found in status `awaiting_payment`, one completed
payment for it is appended, and that order is marked paid. -/
theorem payment_webhook_shape (db : DB) (inp : WebhookInput) (env : WebhookEnv) :
    (payment_webhook db inp env).2 = db ∨
    (∃ o : Order, findOrder db inp.order_reference = some o ∧
       o.status = .awaiting_payment ∧
       ∃ p : Payment, p.order_ref = inp.order_reference ∧
         p.status = .completed ∧
         (payment_webhook db inp env).2 =
           { db with
             payments := db.payments ++ [p]
             orders := updateOrder db inp.order_reference (markPaid env.now) }) := by
  unfold payment_webhook
  split
  · exact Or.inl rfl
  · split
    · exact Or.inl rfl
    · next o hfind =>
      split
      · next htrans =>
        split
        · split
          · exact Or.inl rfl
          · next ps hok =>
            right
            refine ⟨o, hfind, (can_to_paid_iff o.status).mp htrans,
              paymentRow inp env, rfl, rfl, ?_⟩
            unfold insertPayment at hok
            split at hok
            · exact absurd hok (by simp)
            · simp only [Except.ok.injEq] at hok
              simp [← hok]
        · exact Or.inl rfl
      · exact Or.inl rfl

/-- Either `confirm_delivery` leaves the database unchanged, or the order
named in the request was found in status `paid`, one payout is appended,
and that order is marked completed. -/
theorem confirm_delivery_shape (db : DB) (inp : DeliveryInput) (env : DeliveryEnv) :
    (confirm_delivery db inp env).2 = db ∨
    (∃ o : Order, findOrder db inp.order_reference = some o ∧ o.status = .paid ∧
       ∃ po : Payout,
         (confirm_delivery db inp env).2 =
           { db with
             payouts := db.payouts ++ [po]
             orders := updateOrder db inp.order_reference (markCompleted env.now) }) := by
  unfold confirm_delivery
  split
  · split
    · exact Or.inl rfl
    · next o hfind =>
      split
      · next htrans =>
        split
        · split
          · exact Or.inl rfl
          · next payment heq =>
            right
            exact ⟨o, hfind, (can_to_completed_iff o.status).mp htrans, _, rfl⟩
          · exact Or.inl rfl
        · exact Or.inl rfl
      · exact Or.inl rfl
  · exact Or.inl rfl

theorem findOrder_after_update (db : DB) (uref r : Str) (f : Order → Order)
    (hf : ∀ o : Order, (f o).order_reference = o.order_reference)
    (o : Order) (h1 : findOrder db r = some o) :
    (updateOrder db uref f).find? (fun q => decide (q.order_reference = r)) =
      some (if o.order_reference = uref then f o else o) := by
  rw [updateOrder_find? db uref r f hf]
  unfold findOrder at h1
  rw [h1]
  rfl

/-- Computation of one successful `payment_webhook` call: under a fresh
transaction id, an order found in `awaiting_payment` and a matching
amount, the view returns the success response, appends the completed
payment row and marks the order paid. -/
theorem payment_webhook_success_run (db : DB) (inp : WebhookInput) (env : WebhookEnv)
    (o : Order)
    (hfresh : txnTaken db.payments inp.transaction_id = false)
    (hfind : findOrder db inp.order_reference = some o)
    (hstat : o.status = .awaiting_payment)
    (hamt : inp.amount = o.amount) :
    payment_webhook db inp env =
      (.success inp.order_reference inp.transaction_id env.now,
       { db with
         payments := db.payments ++ [paymentRow inp env]
         orders := updateOrder db inp.order_reference (markPaid env.now) }) := by
  unfold payment_webhook
  simp only [hfresh, Bool.false_eq_true, if_false, hfind]
  rw [hstat]
  simp only [show can_transition_to Status.awaiting_payment .paid = true from rfl, if_true]
  rw [if_pos hamt.symm]
  unfold insertPayment
  simp only [show (paymentRow inp env).transaction_id = inp.transaction_id from rfl,
    hfresh, Bool.false_eq_true, if_false]

/-- Sample run of the three operations on concrete values (the end-to-end
scenario of section 8 of the specification), used to instantiate the
hypotheses of the theorems below. -/
def sampleRef : Str := str "ZEM-AB12CD"

def sampleCode : Str := str "123456"

def sampleCreateInp : CreateOrderInput :=
  { buyer_phone := str "254712345678", amount := 150000
    product_description := str "iPhone 13" }

def sampleCreateEnv : CreateOrderEnv :=
  { order_reference := sampleRef, delivery_code := sampleCode
    phone_salt := str "PS", code_salt := str "CS" }

def sampleDB1 : DB := (create_order ⟨[], [], []⟩ sampleCreateInp sampleCreateEnv).2

def sampleWebhookInp : WebhookInput :=
  { order_reference := sampleRef, transaction_id := str "TXN1"
    amount := 150000, payment_method := .mpesa, payer_phone := none }

def sampleWebhookEnv : WebhookEnv := { payer_salt := str "WS", now := 5 }

def sampleDB2 : DB := (payment_webhook sampleDB1 sampleWebhookInp sampleWebhookEnv).2

def sampleOrder1 : Order :=
  { order_reference := sampleRef
    buyer_phone_hash := make_password (str "PS") (str "254712345678")
    buyer_phone_last4 := str "5678"
    amount := 150000
    product_description := str "iPhone 13"
    delivery_code_hash := make_password (str "CS") sampleCode
    status := .awaiting_payment
    paid_at := none
    completed_at := none }

def sampleOrder2 : Order := markPaid 5 sampleOrder1

/-- C1: `can_transition_to` returns true exactly for the pairs of the
spec's transition table, and every public operation either leaves an
order's status unchanged or moves it along an edge the table allows, so no
sequence of `create_order`, `payment_webhook` and `confirm_delivery` can
produce a status transition outside the table. -/
theorem transition_table_respected :
    (∀ s t : Status, can_transition_to s t = true ↔ specTransitionTable s t) ∧
    (∀ (db : DB) (op : Op) (r : Str) (o o' : Order),
      findOrder db r = some o →
      findOrder (applyOp db op) r = some o' →
      o'.status = o.status ∨ can_transition_to o.status o'.status = true) := by
  constructor
  · intro s t
    cases s <;> cases t <;>
      simp only [can_transition_to, valid_transitions, specTransitionTable] <;> decide
  · intro db op r o o' h1 h2
    cases op with
    | create inp env =>
      rcases create_order_shape db inp env with hdb | ⟨hfree, onew, href, hstat, hdb⟩
      · rw [show applyOp db (Op.create inp env) = (create_order db inp env).2 from rfl,
          hdb, h1] at h2
        left
        rw [Option.some.inj h2]
      · rw [show applyOp db (Op.create inp env) = (create_order db inp env).2 from rfl,
          hdb] at h2
        unfold findOrder at h1 h2
        rw [List.find?_append, h1] at h2
        left
        rw [Option.some.inj h2]
    | webhook inp env =>
      rcases payment_webhook_shape db inp env with hdb | ⟨ow, hfindw, hstatw, p, _, _, hdb⟩
      · rw [show applyOp db (Op.webhook inp env) = (payment_webhook db inp env).2 from rfl,
          hdb, h1] at h2
        left
        rw [Option.some.inj h2]
      · rw [show applyOp db (Op.webhook inp env) = (payment_webhook db inp env).2 from rfl,
          hdb] at h2
        unfold findOrder at h2
        rw [findOrder_after_update db inp.order_reference r (markPaid env.now)
          (fun _ => rfl) o h1] at h2
        by_cases hc : o.order_reference = inp.order_reference
        · rw [if_pos hc] at h2
          have hor : o.order_reference = r := by
            have := List.find?_some (p := fun q : Order => decide (q.order_reference = r))
              (by unfold findOrder at h1; exact h1)
            exact of_decide_eq_true this
          have ho : o = ow := by
            rw [hor] at hc
            rw [← hc] at hfindw
            exact Option.some.inj ((h1 ▸ hfindw : findOrder db r = some ow).symm.trans h1).symm
          right
          rw [← Option.some.inj h2, ho, hstatw]
          rfl
        · rw [if_neg hc] at h2
          left
          rw [Option.some.inj h2]
    | deliver inp env =>
      rcases confirm_delivery_shape db inp env with hdb | ⟨ow, hfindw, hstatw, po, hdb⟩
      · rw [show applyOp db (Op.deliver inp env) = (confirm_delivery db inp env).2 from rfl,
          hdb, h1] at h2
        left
        rw [Option.some.inj h2]
      · rw [show applyOp db (Op.deliver inp env) = (confirm_delivery db inp env).2 from rfl,
          hdb] at h2
        unfold findOrder at h2
        rw [findOrder_after_update db inp.order_reference r (markCompleted env.now)
          (fun _ => rfl) o h1] at h2
        by_cases hc : o.order_reference = inp.order_reference
        · rw [if_pos hc] at h2
          have hor : o.order_reference = r := by
            have := List.find?_some (p := fun q : Order => decide (q.order_reference = r))
              (by unfold findOrder at h1; exact h1)
            exact of_decide_eq_true this
          have ho : o = ow := by
            rw [hor] at hc
            rw [← hc] at hfindw
            exact Option.some.inj ((h1 ▸ hfindw : findOrder db r = some ow).symm.trans h1).symm
          right
          rw [← Option.some.inj h2, ho, hstatw]
          rfl
        · rw [if_neg hc] at h2
          left
          rw [Option.some.inj h2]

theorem transition_table_respected_witness :
    sampleOrder2.status = sampleOrder1.status ∨
      can_transition_to sampleOrder1.status sampleOrder2.status = true :=
  transition_table_respected.2 sampleDB1 (Op.webhook sampleWebhookInp sampleWebhookEnv)
    sampleRef sampleOrder1 sampleOrder2 (by decide) (by decide)

/-- C5: against an order in status `awaiting_payment`, a payment webhook
whose amount differs from the order's recorded amount (exact equality on
cents, no tolerance) returns the amount-mismatch response and leaves the
whole database — order status included, no payment row inserted —
unchanged.  The freshness hypothesis reflects that a request with an
already-used transaction id is rejected earlier, by the serializer. -/
theorem amount_mismatch_rejected (db : DB) (inp : WebhookInput) (env : WebhookEnv)
    (o : Order)
    (hfresh : txnTaken db.payments inp.transaction_id = false)
    (hfind : findOrder db inp.order_reference = some o)
    (hstat : o.status = .awaiting_payment)
    (hne : inp.amount ≠ o.amount) :
    payment_webhook db inp env = (.amountMismatch, db) := by
  unfold payment_webhook
  simp only [hfresh, Bool.false_eq_true, if_false, hfind]
  rw [hstat]
  simp only [show can_transition_to Status.awaiting_payment .paid = true from rfl, if_true]
  rw [if_neg (fun h => hne h.symm)]

theorem amount_mismatch_rejected_witness :
    payment_webhook sampleDB1
        { order_reference := sampleRef, transaction_id := str "TXN9"
          amount := 999, payment_method := .mpesa, payer_phone := none }
        { payer_salt := str "W9", now := 9 } =
      (.amountMismatch, sampleDB1) :=
  amount_mismatch_rejected sampleDB1 _ _ sampleOrder1
    (by decide) (by decide) (by decide) (by decide)

/-- C4: against an order in status `paid`, a delivery confirmation whose
code does not verify against the stored hash returns the
invalid-delivery-code response and leaves the whole database — order
status included, no payout row created — unchanged. -/
theorem invalid_code_rejected (db : DB) (inp : DeliveryInput) (env : DeliveryEnv)
    (o : Order)
    (hcode : deliveryCodeField inp.delivery_code = true)
    (hfind : findOrder db inp.order_reference = some o)
    (hstat : o.status = .paid)
    (hver : check_password inp.delivery_code o.delivery_code_hash = false) :
    confirm_delivery db inp env = (.invalidDeliveryCode, db) := by
  unfold confirm_delivery
  simp only [hcode, if_true, hfind]
  rw [hstat]
  simp only [show can_transition_to Status.paid .completed = true from rfl, if_true]
  simp only [hver, Bool.false_eq_true, if_false]

theorem invalid_code_rejected_witness :
    confirm_delivery sampleDB2
        { order_reference := sampleRef, delivery_code := str "999999" }
        { now := 7 } =
      (.invalidDeliveryCode, sampleDB2) :=
  invalid_code_rejected sampleDB2 _ _ sampleOrder2
    (by decide) (by decide) (by decide) (by decide)

/-- C2: when a payment webhook succeeds against an awaiting-payment order,
replaying any webhook carrying the same transaction id is rejected with
the duplicate-transaction-id error and leaves the database — the order's
status and `paid_at` as the first call set them — untouched; and
independently of that serializer pre-check, the payment store's insert
itself (the `unique=True` constraint on `transaction_id`) rejects any row
whose transaction id is already present. -/
theorem duplicate_txn_rejected (db : DB) (inp inp' : WebhookInput)
    (env env' : WebhookEnv) (o : Order) (ps : List Payment) (p : Payment)
    (hfresh : txnTaken db.payments inp.transaction_id = false)
    (hfind : findOrder db inp.order_reference = some o)
    (hstat : o.status = .awaiting_payment)
    (hamt : inp.amount = o.amount)
    (hsame : inp'.transaction_id = inp.transaction_id)
    (hdup : txnTaken ps p.transaction_id = true) :
    (payment_webhook db inp env).1 =
        .success inp.order_reference inp.transaction_id env.now ∧
    payment_webhook (payment_webhook db inp env).2 inp' env' =
      (.duplicateTransactionId, (payment_webhook db inp env).2) ∧
    insertPayment ps p = .error () := by
  have hrun := payment_webhook_success_run db inp env o hfresh hfind hstat hamt
  refine ⟨by rw [hrun], ?_, ?_⟩
  · rw [hrun]
    unfold payment_webhook
    have : txnTaken (db.payments ++ [paymentRow inp env]) inp'.transaction_id = true := by
      unfold txnTaken
      rw [List.any_append]
      simp [paymentRow, hsame]
    simp only [this, if_true]
  · unfold insertPayment
    rw [if_pos hdup]

def samplePayment : Payment :=
  { order_ref := sampleRef, payment_method := .mpesa, amount := 150000
    transaction_id := str "TXN1", payer_phone_hash := none
    payer_phone_last4 := none, status := .completed, completed_at := some 5 }

/-- Per-reference payment invariant: an order reference has at most one
completed payment row, none at all while its order is still awaiting
payment, and none when no order carries the reference. -/
def InvAt (db : DB) (ref : Str) : Prop :=
  (completedFor db ref).length ≤ 1 ∧
  (∀ o : Order, findOrder db ref = some o → o.status = .awaiting_payment →
    completedFor db ref = []) ∧
  (findOrder db ref = none → completedFor db ref = [])

/-- Database-wide payment invariant. -/
def Inv (db : DB) : Prop := ∀ ref : Str, InvAt db ref

theorem inv_init : Inv ⟨[], [], []⟩ := by
  intro ref
  refine ⟨by simp [completedFor], ?_, fun _ => rfl⟩
  intro o ho _
  simp [findOrder] at ho

theorem inv_create (db : DB) (inp : CreateOrderInput) (env : CreateOrderEnv)
    (h : Inv db) : Inv (create_order db inp env).2 := by
  rcases create_order_shape db inp env with hdb | ⟨hfree, onew, href, hstat, hdb⟩
  · rw [hdb]; exact h
  · rw [hdb]
    intro ref
    have hcf : completedFor { db with orders := db.orders ++ [onew] } ref =
        completedFor db ref := rfl
    rcases hcase : findOrder db ref with _ | o
    · have hempty : completedFor db ref = [] := (h ref).2.2 hcase
      refine ⟨?_, ?_, ?_⟩
      · rw [hcf, hempty]; simp
      · intro o' _ _; rw [hcf, hempty]
      · intro _; rw [hcf, hempty]
    · have hfind' : findOrder { db with orders := db.orders ++ [onew] } ref = some o := by
        unfold findOrder at hcase ⊢
        rw [show ({ db with orders := db.orders ++ [onew] } : DB).orders =
          db.orders ++ [onew] from rfl, List.find?_append, hcase]
        rfl
      refine ⟨?_, ?_, ?_⟩
      · rw [hcf]; exact (h ref).1
      · intro o' ho' hs
        have ho : o' = o := (Option.some.inj (hfind'.symm.trans ho')).symm
        rw [hcf]
        exact (h ref).2.1 o hcase (ho ▸ hs)
      · intro hn
        rw [hfind'] at hn
        exact absurd hn (by simp)

theorem inv_webhook (db : DB) (inp : WebhookInput) (env : WebhookEnv)
    (h : Inv db) : Inv (payment_webhook db inp env).2 := by
  rcases payment_webhook_shape db inp env with
    hdb | ⟨ow, hfindw, hstatw, p, hpref, hpst, hdb⟩
  · rw [hdb]; exact h
  · rw [hdb]
    intro ref
    have hcf : completedFor
        { db with
          payments := db.payments ++ [p]
          orders := updateOrder db inp.order_reference (markPaid env.now) } ref =
        completedFor db ref ++ (if inp.order_reference = ref then [p] else []) := by
      unfold completedFor
      rw [show ({ db with
          payments := db.payments ++ [p]
          orders := updateOrder db inp.order_reference (markPaid env.now) } : DB).payments =
        db.payments ++ [p] from rfl, List.filter_append]
      congr 1
      by_cases hc : inp.order_reference = ref
      · simp [List.filter, hpref, hpst, hc]
      · simp [List.filter, hpref, hpst, hc]
    have hfo : findOrder
        { db with
          payments := db.payments ++ [p]
          orders := updateOrder db inp.order_reference (markPaid env.now) } ref =
        (findOrder db ref).map
          (fun q => if q.order_reference = inp.order_reference then markPaid env.now q else q) := by
      unfold findOrder
      exact updateOrder_find? db inp.order_reference ref (markPaid env.now) (fun _ => rfl)
    by_cases hc : inp.order_reference = ref
    · have hfref : findOrder db ref = some ow := hc ▸ hfindw
      have howr : ow.order_reference = ref := by
        have := List.find?_some (p := fun q : Order => decide (q.order_reference = ref))
          (by unfold findOrder at hfref; exact hfref)
        exact of_decide_eq_true this
      have hempty : completedFor db ref = [] := (h ref).2.1 ow hfref hstatw
      have hcf1 : completedFor
          { db with
            payments := db.payments ++ [p]
            orders := updateOrder db inp.order_reference (markPaid env.now) } ref = [p] := by
        rw [hcf, hempty, if_pos hc]
        rfl
      refine ⟨by rw [hcf1]; simp, ?_, ?_⟩
      · intro o' ho' hs
        rw [hfo, hfref] at ho'
        have ho : o' = markPaid env.now ow := by
          simp only [Option.map_some'] at ho'
          rw [if_pos (howr.trans hc.symm)] at ho'
          exact (Option.some.inj ho').symm
        rw [ho] at hs
        exact absurd hs (fun hcon => Status.noConfusion hcon)
      · intro hn
        rw [hfo, hfref] at hn
        exact absurd hn (by simp)
    · have hcf0 : completedFor
          { db with
            payments := db.payments ++ [p]
            orders := updateOrder db inp.order_reference (markPaid env.now) } ref =
          completedFor db ref := by
        rw [hcf, if_neg hc, List.append_nil]
      rcases hcase : findOrder db ref with _ | o
      · have hempty : completedFor db ref = [] := (h ref).2.2 hcase
        refine ⟨by rw [hcf0, hempty]; simp, ?_, ?_⟩
        · intro o' _ _; rw [hcf0, hempty]
        · intro _; rw [hcf0, hempty]
      · have howr : o.order_reference = ref := by
          have := List.find?_some (p := fun q : Order => decide (q.order_reference = ref))
            (by unfold findOrder at hcase; exact hcase)
          exact of_decide_eq_true this
        have hfind' : findOrder
            { db with
              payments := db.payments ++ [p]
              orders := updateOrder db inp.order_reference (markPaid env.now) } ref =
            some o := by
          rw [hfo, hcase]
          have : ¬ o.order_reference = inp.order_reference := by
            rw [howr]
            exact fun hcon => hc hcon.symm
          simp [this]
        refine ⟨by rw [hcf0]; exact (h ref).1, ?_, ?_⟩
        · intro o' ho' hs
          have ho : o' = o := (Option.some.inj (hfind'.symm.trans ho')).symm
          rw [hcf0]
          exact (h ref).2.1 o hcase (ho ▸ hs)
        · intro hn
          rw [hfind'] at hn
          exact absurd hn (by simp)

theorem inv_deliver (db : DB) (inp : DeliveryInput) (env : DeliveryEnv)
    (h : Inv db) : Inv (confirm_delivery db inp env).2 := by
  rcases confirm_delivery_shape db inp env with hdb | ⟨ow, hfindw, hstatw, po, hdb⟩
  · rw [hdb]; exact h
  · rw [hdb]
    intro ref
    have hcf : completedFor
        { db with
          payouts := db.payouts ++ [po]
          orders := updateOrder db inp.order_reference (markCompleted env.now) } ref =
        completedFor db ref := rfl
    have hfo : findOrder
        { db with
          payouts := db.payouts ++ [po]
          orders := updateOrder db inp.order_reference (markCompleted env.now) } ref =
        (findOrder db ref).map
          (fun q => if q.order_reference = inp.order_reference then markCompleted env.now q else q) := by
      unfold findOrder
      exact updateOrder_find? db inp.order_reference ref (markCompleted env.now) (fun _ => rfl)
    rcases hcase : findOrder db ref with _ | o
    · have hempty : completedFor db ref = [] := (h ref).2.2 hcase
      refine ⟨by rw [hcf, hempty]; simp, ?_, ?_⟩
      · intro o' _ _; rw [hcf, hempty]
      · intro _; rw [hcf, hempty]
    · refine ⟨by rw [hcf]; exact (h ref).1, ?_, ?_⟩
      · intro o' ho' hs
        rw [hfo, hcase] at ho'
        have ho : o' = if o.order_reference = inp.order_reference
            then markCompleted env.now o else o := (Option.some.inj ho').symm
        by_cases hc : o.order_reference = inp.order_reference
        · rw [ho, if_pos hc] at hs
          exact absurd hs (fun hcon => Status.noConfusion hcon)
        · rw [ho, if_neg hc] at hs
          rw [hcf]
          exact (h ref).2.1 o hcase hs
      · intro hn
        rw [hfo, hcase] at hn
        exact absurd hn (by simp)

theorem inv_of_reachable {db : DB} (h : Reachable db) : Inv db := by
  induction h with
  | init => exact inv_init
  | step op _ ih =>
    cases op with
    | create inp env => exact inv_create _ inp env ih
    | webhook inp env => exact inv_webhook _ inp env ih
    | deliver inp env => exact inv_deliver _ inp env ih

theorem duplicate_txn_rejected_witness :
    (payment_webhook sampleDB1 sampleWebhookInp sampleWebhookEnv).1 =
        .success sampleWebhookInp.order_reference sampleWebhookInp.transaction_id
          sampleWebhookEnv.now ∧
    payment_webhook (payment_webhook sampleDB1 sampleWebhookInp sampleWebhookEnv).2
        { order_reference := sampleRef, transaction_id := str "TXN1"
          amount := 150000, payment_method := .visa, payer_phone := none }
        { payer_salt := str "W2", now := 8 } =
      (.duplicateTransactionId,
       (payment_webhook sampleDB1 sampleWebhookInp sampleWebhookEnv).2) ∧
    insertPayment [samplePayment] samplePayment = .error () :=
  duplicate_txn_rejected sampleDB1 sampleWebhookInp _ sampleWebhookEnv _
    sampleOrder1 [samplePayment] samplePayment
    (by decide) (by decide) (by decide) (by decide) (by decide) (by decide)

/-- C10: in every state reachable through the public operations, each
order reference has at most one completed payment row; consequently the
single-row completed-payment lookup inside `confirm_delivery` is
well-defined — that view can never hit its several-rows exception (the
blanket server-error response). -/
theorem at_most_one_completed_payment (db : DB) (h : Reachable db) :
    (∀ ref : Str, (completedFor db ref).length ≤ 1) ∧
    (∀ (inp : DeliveryInput) (env : DeliveryEnv),
      (confirm_delivery db inp env).1 ≠ .serverError) := by
  have hinv := inv_of_reachable h
  refine ⟨fun ref => (hinv ref).1, ?_⟩
  intro inp env
  unfold confirm_delivery
  split
  · split
    · exact fun hcon => DeliveryResult.noConfusion hcon
    · split
      · split
        · split
          · exact fun hcon => DeliveryResult.noConfusion hcon
          · exact fun hcon => DeliveryResult.noConfusion hcon
          · rename_i heq
            intro _
            have hlen := (hinv inp.order_reference).1
            rw [heq] at hlen
            simp at hlen
        · exact fun hcon => DeliveryResult.noConfusion hcon
      · exact fun hcon => DeliveryResult.noConfusion hcon
  · exact fun hcon => DeliveryResult.noConfusion hcon

theorem at_most_one_completed_payment_witness :
    (completedFor sampleDB2 sampleRef).length ≤ 1 ∧
    (confirm_delivery sampleDB2
        { order_reference := sampleRef, delivery_code := sampleCode }
        { now := 7 }).1 ≠ .serverError := by
  have hreach : Reachable sampleDB2 :=
    Reachable.step (Op.webhook sampleWebhookInp sampleWebhookEnv)
      (Reachable.step (Op.create sampleCreateInp sampleCreateEnv) Reachable.init)
  exact ⟨(at_most_one_completed_payment sampleDB2 hreach).1 sampleRef,
    (at_most_one_completed_payment sampleDB2 hreach).2
      { order_reference := sampleRef, delivery_code := sampleCode } { now := 7 }⟩

/-- C3: on any reachable state, confirming delivery of a `paid` order with
a well-formed code that verifies against the stored hash, given that a
completed payment for the order exists, succeeds: that completed payment
is in fact unique, the response is the success response, exactly one
payout row is appended — carrying the order's amount and status `pending`
— and the order is saved as `completed` with `completed_at` set to the
call's time. -/
theorem confirm_delivery_success (db : DB) (inp : DeliveryInput) (env : DeliveryEnv)
    (o : Order)
    (hreach : Reachable db)
    (hcode : deliveryCodeField inp.delivery_code = true)
    (hfind : findOrder db inp.order_reference = some o)
    (hstat : o.status = .paid)
    (hver : check_password inp.delivery_code o.delivery_code_hash = true)
    (hpay : completedFor db inp.order_reference ≠ []) :
    ∃ p : Payment, completedFor db inp.order_reference = [p] ∧
      confirm_delivery db inp env =
        (.success inp.order_reference env.now,
         { db with
           payouts := db.payouts ++
             [{ order_ref := inp.order_reference
                payment_transaction_id := p.transaction_id
                amount := o.amount
                seller_phone_hash := o.buyer_phone_hash
                seller_phone_last4 := o.buyer_phone_last4
                status := .pending }]
           orders := updateOrder db inp.order_reference (markCompleted env.now) }) ∧
      findOrder (confirm_delivery db inp env).2 inp.order_reference =
        some (markCompleted env.now o) := by
  have hlen := (inv_of_reachable hreach inp.order_reference).1
  rcases hcp : completedFor db inp.order_reference with _ | ⟨p, tl⟩
  · exact absurd hcp hpay
  · rcases tl with _ | ⟨q, tl2⟩
    · have hrun : confirm_delivery db inp env =
          (.success inp.order_reference env.now,
           { db with
             payouts := db.payouts ++
               [{ order_ref := inp.order_reference
                  payment_transaction_id := p.transaction_id
                  amount := o.amount
                  seller_phone_hash := o.buyer_phone_hash
                  seller_phone_last4 := o.buyer_phone_last4
                  status := .pending }]
             orders := updateOrder db inp.order_reference (markCompleted env.now) }) := by
        unfold confirm_delivery
        simp only [hcode, if_true, hfind]
        rw [hstat]
        simp only [show can_transition_to Status.paid .completed = true from rfl, if_true,
          hver, hcp]
      refine ⟨p, rfl, hrun, ?_⟩
      have hor : o.order_reference = inp.order_reference := by
        have := List.find?_some
          (p := fun q : Order => decide (q.order_reference = inp.order_reference))
          (by unfold findOrder at hfind; exact hfind)
        exact of_decide_eq_true this
      rw [hrun]
      show (updateOrder db inp.order_reference (markCompleted env.now)).find?
          (fun q => decide (q.order_reference = inp.order_reference)) =
        some (markCompleted env.now o)
      rw [findOrder_after_update db inp.order_reference inp.order_reference
        (markCompleted env.now) (fun _ => rfl) o hfind, if_pos hor]
    · rw [hcp] at hlen
      simp at hlen

theorem confirm_delivery_success_witness :
    completedFor sampleDB2 sampleRef = [samplePayment] ∧
    confirm_delivery sampleDB2
        { order_reference := sampleRef, delivery_code := sampleCode } { now := 7 } =
      (.success sampleRef 7,
       { sampleDB2 with
         payouts := sampleDB2.payouts ++
           [{ order_ref := sampleRef
              payment_transaction_id := samplePayment.transaction_id
              amount := sampleOrder2.amount
              seller_phone_hash := sampleOrder2.buyer_phone_hash
              seller_phone_last4 := sampleOrder2.buyer_phone_last4
              status := .pending }]
         orders := updateOrder sampleDB2 sampleRef (markCompleted 7) }) ∧
    findOrder (confirm_delivery sampleDB2
        { order_reference := sampleRef, delivery_code := sampleCode } { now := 7 }).2
        sampleRef =
      some (markCompleted 7 sampleOrder2) := by
  have hreach : Reachable sampleDB2 :=
    Reachable.step (Op.webhook sampleWebhookInp sampleWebhookEnv)
      (Reachable.step (Op.create sampleCreateInp sampleCreateEnv) Reachable.init)
  obtain ⟨p, h1, h2, h3⟩ := confirm_delivery_success sampleDB2
    { order_reference := sampleRef, delivery_code := sampleCode } { now := 7 }
    sampleOrder2 hreach (by decide) (by decide) (by decide) (by decide) (by decide)
  have h1' : [p] = [samplePayment] := h1.symm.trans (by decide)
  injection h1' with hp _
  exact ⟨hp ▸ h1, hp ▸ h2, h3⟩

theorem splitDollar_no_dollar (a : Str) (ha : ∀ c ∈ a, c ≠ '$') :
    splitDollar a = [a] := by
  induction a with
  | nil => rfl
  | cons c rest ih =>
    have hc : c ≠ '$' := ha c (List.mem_cons_self c rest)
    have hrest : ∀ x ∈ rest, x ≠ '$' := fun x hx => ha x (List.mem_cons_of_mem c hx)
    show (if c = '$' then [] :: splitDollar rest
      else
        match splitDollar rest with
        | [] => [[c]]
        | p :: ps => (c :: p) :: ps) = [c :: rest]
    rw [if_neg hc, ih hrest]

theorem splitDollar_append (a b : Str) (ha : ∀ c ∈ a, c ≠ '$') :
    splitDollar (a ++ '$' :: b) = a :: splitDollar b := by
  induction a with
  | nil => rfl
  | cons c rest ih =>
    have hc : c ≠ '$' := ha c (List.mem_cons_self c rest)
    have hrest : ∀ x ∈ rest, x ≠ '$' := fun x hx => ha x (List.mem_cons_of_mem c hx)
    show (if c = '$' then [] :: splitDollar (rest ++ '$' :: b)
      else
        match splitDollar (rest ++ '$' :: b) with
        | [] => [[c]]
        | p :: ps => (c :: p) :: ps) = (c :: rest) :: splitDollar b
    rw [if_neg hc, ih hrest]

theorem hashDigest_no_dollar (salt secret : Str) :
    ∀ c ∈ hashDigest salt secret, c ≠ '$' := by
  intro c hc
  unfold hashDigest at hc
  rcases List.mem_map.mp hc with ⟨d, _, hd⟩
  rw [← hd]
  unfold sanitizeChar
  by_cases h : d = '$'
  · rw [if_pos h]; decide
  · rw [if_neg h]; exact h

/-- Well-formedness of a Django salt: salts are drawn from an alphanumeric
alphabet and in particular never contain the `$` separator. -/
def saltOk (s : Str) : Prop := ∀ c ∈ s, c ≠ '$'

theorem check_password_make (salt secret : Str) (hs : saltOk salt) :
    check_password secret (make_password salt secret) = true := by
  unfold check_password make_password
  have h13 : ∀ c ∈ str "pbkdf2_sha256", c ≠ '$' := by decide
  have h7 : ∀ c ∈ str "1000000", c ≠ '$' := by decide
  rw [splitDollar_append _ _ h13, splitDollar_append _ _ h7, splitDollar_append _ _ hs,
    splitDollar_no_dollar _ (hashDigest_no_dollar salt secret)]
  simp

theorem make_password_ne (salt secret : Str) : make_password salt secret ≠ secret := by
  intro hcon
  have hlen := congrArg List.length hcon
  simp only [make_password, hashDigest, List.length_append, List.length_cons,
    List.length_map] at hlen
  rw [show (str "pbkdf2_sha256").length = 13 from rfl,
    show (str "1000000").length = 7 from rfl] at hlen
  omega

/-- Computation of one successful `create_order` call: it returns exactly
the generated reference and code, the reference was free, and the inserted
order stores the two salted hashes with status `awaiting_payment`. -/
theorem create_order_success_shape (db : DB) (inp : CreateOrderInput) (env : CreateOrderEnv)
    (ref code : Str) (amt : Int)
    (hres : (create_order db inp env).1 = .success ref code amt) :
    ref = env.order_reference ∧ code = env.delivery_code ∧
    refTaken db env.order_reference = false ∧
    ∃ phone : Str, validate_buyer_phone inp.buyer_phone = some phone ∧
      (create_order db inp env).2 =
        { db with orders := db.orders ++ [createdOrder inp env phone] } := by
  unfold create_order at hres ⊢
  rcases hp : validate_buyer_phone inp.buyer_phone with _ | phone
  · rw [hp] at hres
    exact CreateOrderResult.noConfusion hres
  · simp only [hp] at hres ⊢
    by_cases hamt : (amountFieldValid inp.amount && validate_amount inp.amount
        && descriptionValid inp.product_description) = true
    · rw [if_pos hamt] at hres ⊢
      by_cases hfree : refTaken db env.order_reference = true
      · rw [if_pos hfree] at hres
        exact CreateOrderResult.noConfusion hres
      · rw [if_neg hfree] at hres ⊢
        have hres' : CreateOrderResult.success env.order_reference env.delivery_code
            inp.amount = .success ref code amt := hres
        injection hres' with h1 h2 h3
        exact ⟨h1.symm, h2.symm, Bool.eq_false_iff.mpr hfree, phone, rfl, rfl⟩
    · rw [if_neg hamt] at hres
      exact CreateOrderResult.noConfusion hres

/-- C6: whenever `create_order` succeeds, the plaintext delivery code
returned to the caller verifies against the delivery-code hash stored on
the created order, and the stored hash string is never equal to the
plaintext code. -/
theorem delivery_code_round_trip (db : DB) (inp : CreateOrderInput) (env : CreateOrderEnv)
    (ref code : Str) (amt : Int)
    (hsalt : saltOk env.code_salt)
    (hres : (create_order db inp env).1 = .success ref code amt) :
    ∃ o : Order, findOrder (create_order db inp env).2 ref = some o ∧
      check_password code o.delivery_code_hash = true ∧
      o.delivery_code_hash ≠ code := by
  obtain ⟨href, hcode, hfree, phone, hphone, hdb⟩ :=
    create_order_success_shape db inp env ref code amt hres
  refine ⟨createdOrder inp env phone, ?_, ?_, ?_⟩
  · rw [hdb]
    unfold findOrder
    show (db.orders ++ [createdOrder inp env phone]).find?
      (fun q => decide (q.order_reference = ref)) = some (createdOrder inp env phone)
    rw [List.find?_append]
    have hnone : db.orders.find? (fun q => decide (q.order_reference = ref)) = none := by
      rw [List.find?_eq_none]
      intro x hx hcon
      have hxr : x.order_reference = ref := of_decide_eq_true hcon
      have : refTaken db env.order_reference = true := by
        unfold refTaken
        rw [List.any_eq_true]
        exact ⟨x, hx, decide_eq_true (hxr.trans href)⟩
      rw [this] at hfree
      exact Bool.noConfusion hfree
    rw [hnone, Option.none_or]
    have hp2 : (fun q : Order => decide (q.order_reference = ref))
        (createdOrder inp env phone) = true :=
      decide_eq_true (show (createdOrder inp env phone).order_reference = ref from href.symm)
    rw [List.find?_cons_of_pos (p := fun q : Order => decide (q.order_reference = ref)) [] hp2]
  · show check_password code (make_password env.code_salt env.delivery_code) = true
    rw [hcode]
    exact check_password_make env.code_salt env.delivery_code hsalt
  · show make_password env.code_salt env.delivery_code ≠ code
    rw [hcode]
    exact make_password_ne env.code_salt env.delivery_code

theorem delivery_code_round_trip_witness :
    findOrder sampleDB1 sampleRef = some sampleOrder1 ∧
    check_password sampleCode sampleOrder1.delivery_code_hash = true ∧
    sampleOrder1.delivery_code_hash ≠ sampleCode := by
  obtain ⟨o, h1, h2, h3⟩ := delivery_code_round_trip ⟨[], [], []⟩ sampleCreateInp
    sampleCreateEnv sampleRef sampleCode 150000 (by unfold saltOk; decide) (by decide)
  have ho : sampleOrder1 = o :=
    Option.some.inj ((show findOrder sampleDB1 sampleRef = some sampleOrder1 by decide).symm.trans h1)
  exact ⟨ho ▸ h1, ho ▸ h2, ho ▸ h3⟩

/-- C9: two payment confirmations for the same order reference, each with
its own fresh transaction id and the correct amount, executed under the
row-lock serialization that `select_for_update` provides (modelled by the
two atomic transactions running one after the other; the statement is
symmetric in the two requests, so it covers either acquisition order):
the holder of the lock succeeds, and the other caller then observes the
already-updated status `paid` and fails with the invalid-transition
error. -/
theorem concurrent_confirm_payment (db : DB) (inp inp' : WebhookInput)
    (env env' : WebhookEnv) (o : Order)
    (href : inp'.order_reference = inp.order_reference)
    (hfind : findOrder db inp.order_reference = some o)
    (hstat : o.status = .awaiting_payment)
    (hamt : inp.amount = o.amount)
    (hfresh : txnTaken db.payments inp.transaction_id = false)
    (hfresh' : txnTaken db.payments inp'.transaction_id = false)
    (hne : inp'.transaction_id ≠ inp.transaction_id) :
    (payment_webhook db inp env).1 =
      .success inp.order_reference inp.transaction_id env.now ∧
    (payment_webhook (payment_webhook db inp env).2 inp' env').1 =
      .invalidTransition .paid := by
  have hrun := payment_webhook_success_run db inp env o hfresh hfind hstat hamt
  refine ⟨by rw [hrun], ?_⟩
  rw [hrun]
  unfold payment_webhook
  have hfresh2 : txnTaken (db.payments ++ [paymentRow inp env])
      inp'.transaction_id = false := by
    unfold txnTaken at hfresh' ⊢
    rw [List.any_append, hfresh']
    simp only [List.any_cons, List.any_nil, Bool.or_false, Bool.false_or]
    rw [show (paymentRow inp env).transaction_id = inp.transaction_id from rfl]
    exact decide_eq_false (fun h => hne h.symm)
  simp only [hfresh2, Bool.false_eq_true, if_false]
  have hor : o.order_reference = inp.order_reference := by
    have := List.find?_some
      (p := fun q : Order => decide (q.order_reference = inp.order_reference))
      (by unfold findOrder at hfind; exact hfind)
    exact of_decide_eq_true this
  have hfind2 : findOrder
      { db with
        payments := db.payments ++ [paymentRow inp env]
        orders := updateOrder db inp.order_reference (markPaid env.now) }
      inp'.order_reference = some (markPaid env.now o) := by
    rw [href]
    unfold findOrder
    show (updateOrder db inp.order_reference (markPaid env.now)).find?
      (fun q => decide (q.order_reference = inp.order_reference)) = _
    rw [findOrder_after_update db inp.order_reference inp.order_reference
      (markPaid env.now) (fun _ => rfl) o hfind, if_pos hor]
  simp only [hfind2]
  rfl

theorem concurrent_confirm_payment_witness :
    (payment_webhook sampleDB1 sampleWebhookInp sampleWebhookEnv).1 =
      .success sampleWebhookInp.order_reference sampleWebhookInp.transaction_id
        sampleWebhookEnv.now ∧
    (payment_webhook (payment_webhook sampleDB1 sampleWebhookInp sampleWebhookEnv).2
        { order_reference := sampleRef, transaction_id := str "TXN2"
          amount := 150000, payment_method := .mpesa, payer_phone := none }
        { payer_salt := str "W3", now := 6 }).1 =
      .invalidTransition .paid :=
  concurrent_confirm_payment sampleDB1 sampleWebhookInp _ sampleWebhookEnv _ sampleOrder1
    (by decide) (by decide) (by decide) (by decide) (by decide) (by decide) (by decide)

/-- C7 counterexample: the claim as stated fails on the code in both of
its parts.  An amount of 0.50 (50 cents) is strictly positive and below
the configured maximum of 500000.00, yet the serializer rejects it
(`min_value=1`); and the input "2547123456+8" cannot be normalized to the
canonical all-digit format 254XXXXXXXXX, yet `validate_buyer_phone`
accepts it, returning a 12-character value that still contains a plus
sign. -/
theorem create_order_validation_claim_false :
    ((0 : Int) < 50 ∧ (50 : Int) ≤ 50000000 ∧
      (amountFieldValid 50 && validate_amount 50) = false) ∧
    (validate_buyer_phone (str "2547123456+8") = some (str "2547123456+8") ∧
      (str "2547123456+8").all Char.isDigit = false) := by
  decide

theorem phoneNormalize_shape (s q : Str) (h : phoneNormalize s = some q) :
    q.take 3 = str "254" := by
  unfold phoneNormalize at h
  split at h <;>
    first
      | (rw [← Option.some.inj h]; rfl)
      | exact Option.noConfusion h

/-- C7 amended: the serializer accepts an amount exactly when it is at
least 1.00 and at most the configured maximum of 500000.00, and an
invalid amount is rejected by the serializer before any storage access
(the database is returned unchanged).  Phone validation strips every
character except digits and plus signs, maps the `+254` and `0` prefixes
onto `254`, and accepts exactly the inputs whose normalized form has 12
characters and starts with `254`; an accepted value can retain interior
plus signs, so it is not always the canonical all-digit 254XXXXXXXXX
format the claim asserts. -/
theorem create_order_validation_amended :
    (∀ cents : Int, (amountFieldValid cents && validate_amount cents) = true ↔
      100 ≤ cents ∧ cents ≤ 50000000) ∧
    (∀ v p : Str, validate_buyer_phone v = some p →
      p.length = 12 ∧ p.take 3 = str "254") ∧
    (∀ (db : DB) (inp : CreateOrderInput) (env : CreateOrderEnv),
      (amountFieldValid inp.amount && validate_amount inp.amount) = false →
      create_order db inp env = (.validationError, db)) := by
  refine ⟨?_, ?_, ?_⟩
  · intro cents
    unfold amountFieldValid validate_amount
    simp only [Bool.and_eq_true, decide_eq_true_eq]
    omega
  · intro v p h
    unfold validate_buyer_phone at h
    rcases hn : phoneNormalize (stripPhoneChars v) with _ | q
    · rw [hn] at h
      exact Option.noConfusion h
    · simp only [hn] at h
      by_cases hlen : q.length = 12
      · rw [if_pos hlen] at h
        have hq : q = p := Option.some.inj h
        exact ⟨hq ▸ hlen, hq ▸ phoneNormalize_shape _ q hn⟩
      · rw [if_neg hlen] at h
        exact Option.noConfusion h
  · intro db inp env hbad
    unfold create_order
    rcases hp : validate_buyer_phone inp.buyer_phone with _ | phone
    · rfl
    · simp only [hp]
      rw [hbad]
      simp only [Bool.false_and, Bool.false_eq_true, if_false]

theorem create_order_validation_amended_witness :
    ((amountFieldValid 150000 && validate_amount 150000) = true ↔
      (100 : Int) ≤ 150000 ∧ (150000 : Int) ≤ 50000000) ∧
    ((str "254712345678").length = 12 ∧ (str "254712345678").take 3 = str "254") ∧
    create_order ⟨[], [], []⟩
        { buyer_phone := str "254712345678", amount := 50
          product_description := str "iPhone 13" } sampleCreateEnv =
      (.validationError, ⟨[], [], []⟩) :=
  ⟨create_order_validation_amended.1 150000,
   create_order_validation_amended.2.1 (str "0712345678") (str "254712345678") (by decide),
   create_order_validation_amended.2.2 ⟨[], [], []⟩ _ sampleCreateEnv (by decide)⟩

/-- C8 counterexample: the claim as stated is false — `create_order`
generates a single reference per call and never retries.  Against a
database already holding an order with reference ZEM-AB12CD, a valid
creation request whose one generated reference collides returns the
generic server error: one collision alone makes the operation fail. -/
theorem reference_retry_claim_false :
    create_order sampleDB1 sampleCreateInp sampleCreateEnv = (.serverError, sampleDB1) := by
  decide

/-- C8 amended: there is no retry in the code.  Whenever the single
generated reference collides with an existing order, `create_order` fails
at once with the generic server error of the blanket exception handler
(the unique-constraint violation aborts the transaction), leaving the
database unchanged; a second reference is never drawn. -/
theorem reference_collision_fails (db : DB) (inp : CreateOrderInput) (env : CreateOrderEnv)
    (phone : Str)
    (hphone : validate_buyer_phone inp.buyer_phone = some phone)
    (hamt : (amountFieldValid inp.amount && validate_amount inp.amount
      && descriptionValid inp.product_description) = true)
    (htaken : refTaken db env.order_reference = true) :
    create_order db inp env = (.serverError, db) := by
  unfold create_order
  simp only [hphone]
  rw [if_pos hamt, if_pos htaken]

theorem reference_collision_fails_witness :
    create_order sampleDB1
        { buyer_phone := str "0712345678", amount := 200000
          product_description := str "MacBook Air" } sampleCreateEnv =
      (.serverError, sampleDB1) :=
  reference_collision_fails sampleDB1 _ sampleCreateEnv (str "254712345678")
    (by decide) (by decide) (by decide)

end Zemi
